import Mathlib

/-!
Shallow embedding of the acquisition/policy subsystem of EasyBO
(`src/easygp/policy.py`, with the logger behavior of
`src/easygp/__init__.py`).

Modelling conventions:
* Python/numpy floats are modelled by `ℚ`; a 1-D numpy array is a
  `List ℚ`; a 2-D batch of points is a `List (List ℚ)`.
* A Python exception (`TypeError` from arithmetic on `None`, a failed
  `assert`, `AttributeError`) is modelled by `Option`: `none` is a raise.
* `scipy.optimize.minimize` and `np.random.uniform` are external
  collaborators: the random starting point of restart `n` is `draw n`,
  and the local bounded minimizer is an oracle `lo : LocalOpt` taking
  the objective, the starting point and the box bounds and returning a
  point together with the objective value it reports (`fval = none`
  models a non-finite reported value, which the `res.fun < min_f`
  comparison of the source never accepts).
* `logger.critical` terminates the process: `configure_loggers` installs
  the handler `lambda _: sys.exit(1)` at level CRITICAL
  (`src/easygp/__init__.py`, line 89) and is invoked at import time, so
  the `return min_x` after `logger.critical("Optimization unsuccessful")`
  is unreachable when `min_x is None`.  `optimize_01` is therefore
  modelled with result type `Except String Point`.
-/

abbrev Point := List ℚ

abbrev Bounds := List (ℚ × ℚ)

/-- Surrogate model collaborator (the `gp` argument of the policies):
`predict x = (mean, std)` and `sample_y` drawing posterior samples,
together with the `bounds` attribute read by `suggest`. -/
structure GP where
  bounds : Bounds
  predict : Point → List ℚ × List ℚ
  sample_y : List Point → Nat → List ℚ

/-- Mutable state of a `BasePolicy` instance: `_target` and `_ybest`
start as `None` (`BasePolicy.__init__`), `_weight` starts as `1.0`. -/
structure PolicyState where
  target : Option ℚ
  ybest : Option ℚ
  weight : ℚ

/-- `BasePolicy.__init__`: target and ybest are `None`, weight is `1.0`. -/
def initPolicyState : PolicyState := ⟨none, none, 1⟩

/-- `RequiresTarget.set_target`. -/
def RequiresTarget.set_target (s : PolicyState) (x : ℚ) : PolicyState :=
  { s with target := some x }

/-- `RequiresYbest.set_ybest` (writes the `_ybest` backing field). -/
def RequiresYbest.set_ybest (s : PolicyState) (x : ℚ) : PolicyState :=
  { s with ybest := some x }

/-- `BasePolicy.set_weight`. -/
def BasePolicy.set_weight (s : PolicyState) (x : ℚ) : PolicyState :=
  { s with weight := x }

/-- `np.mean` of a 1-D array. -/
def npMean (l : List ℚ) : ℚ := l.sum / (l.length : ℚ)

/-- `np.var` of a 1-D array: mean of the squared deviations from the mean. -/
def npVar (l : List ℚ) : ℚ := npMean (l.map fun v => (v - npMean l) ^ 2)

/-- `BasePolicy.objective`: `-((self._target - x) ** 2)`, numpy-broadcast
over the array `x`.  The subtraction `self._target - x` is object
arithmetic on `None` when the target is unset, raising `TypeError`
before any element is produced; hence `none` whenever `target = none`. -/
def BasePolicy.objective (s : PolicyState) (xs : List ℚ) : Option (List ℚ) :=
  s.target.map fun t => xs.map fun x => -((t - x) ^ 2)

/-- Result of one `scipy.optimize.minimize` call: the located point
`res.x` and the reported value `res.fun` (`none` for a non-finite
report, which the update `res.fun < min_f` never accepts). -/
structure LocalOptResult where
  x : Point
  fval : Option ℚ

abbrev ObjFun := Point → Option ℚ

/-- The local bounded minimizer collaborator: objective, starting point,
box bounds ↦ result. -/
abbrev LocalOpt := ObjFun → Point → Bounds → LocalOptResult

/-- The per-restart random draw `np.random.uniform(low, high)`:
restart `n` starts from `draw n`. -/
abbrev Draw := Nat → Point

/-- The update test `res.fun < min_f` of `optimize_01`, with `min_f`
initially `np.inf` (modelled `none`) and a non-finite `res.fun`
(modelled `none`) never comparing below anything. -/
def improves : Option ℚ → Option ℚ → Bool
  | none, _ => false
  | some _, none => true
  | some v, some m => decide (v < m)

/-- The restart loop of `optimize_01`: starting from
`min_x = None, min_f = np.inf`, run restarts `0, 1, ..., n-1` in order,
keeping the pair that achieved the least reported value. -/
def runRestarts (lo : LocalOpt) (draw : Draw) (f : ObjFun) (bounds : Bounds) :
    Nat → Option Point × Option ℚ
  | 0 => (none, none)
  | n + 1 =>
    if improves (lo f (draw n) bounds).fval (runRestarts lo draw f bounds n).2 then
      (some (lo f (draw n) bounds).x, (lo f (draw n) bounds).fval)
    else
      runRestarts lo draw f bounds n

/-- `optimize_01(f, bounds, num_restarts)`: multi-restart minimization.
If after all restarts `min_x is None`, the source calls
`logger.critical("Optimization unsuccessful")`, which terminates the
process (see module doc); modelled as `Except.error`.  Otherwise the
best point is returned. -/
def optimize_01 (lo : LocalOpt) (draw : Draw) (f : ObjFun) (bounds : Bounds)
    (num_restarts : Nat) : Except String Point :=
  match (runRestarts lo draw f bounds num_restarts).1 with
  | none => .error "Optimization unsuccessful"
  | some x => .ok x

/-- `BasePolicy.suggest(gp, n_restarts)`: wraps the acquisition as
`aq(x) = -acquisition(x, gp)` and calls `optimize_01(aq, gp.bounds,
n_restarts)`.  The acquisition is passed as a function so that the one
definition covers every policy variant. -/
def BasePolicy.suggest (lo : LocalOpt) (draw : Draw) (acq : Point → Option ℚ)
    (gp : GP) (n_restarts : Nat) : Except String Point :=
  optimize_01 lo draw (fun x => (acq x).map fun v => -v) gp.bounds n_restarts

/-- `MaxVariancePolicy.acquisition`: `(sd ** 2 * self._weight).sum()`
with `sd` the predicted standard deviation.  Total: neither `target`
nor `ybest` is read. -/
def MaxVariancePolicy.acquisition (s : PolicyState) (gp : GP) (x : Point) : ℚ :=
  (((gp.predict x).2).map fun sd => sd ^ 2 * s.weight).sum

/-- `MaxVarianceTargetPolicy.acquisition`:
`(np.var(self.objective(gp.sample_y(x))) * self._weight).sum().item()`.
The class does not override `objective`, so the inherited
target-based `BasePolicy.objective` is applied to the samples
(`gp.sample_y(x)` uses the library default of one sample per point). -/
def MaxVarianceTargetPolicy.acquisition (s : PolicyState) (gp : GP)
    (x : List Point) : Option ℚ :=
  (BasePolicy.objective s (gp.sample_y x 1)).map fun J => npVar J * s.weight

/-- `ExploitationTargetPolicy.acquisition`:
`(self.objective(mu) * self._weight).sum().item()` with `mu` the
predicted mean. -/
def ExploitationTargetPolicy.acquisition (s : PolicyState) (gp : GP)
    (x : Point) : Option ℚ :=
  (BasePolicy.objective s (gp.predict x).1).map fun J =>
    (J.map fun j => j * s.weight).sum

/-- The attribute read `self.ybest` in
`ExpectedImprovementPolicy.acquisition`.  No class in the hierarchy
(`BasePolicy`, `RequiresTarget`, `RequiresYbest`) defines an attribute
or property named `ybest`: `BasePolicy.__init__` and
`RequiresYbest.set_ybest` only ever write the backing field `_ybest`.
The lookup therefore raises `AttributeError` on every instance,
regardless of the stored state — modelled as `none` for every state. -/
def ExpectedImprovementPolicy.ybest (_s : PolicyState) : Option ℚ := none

/-- `ExpectedImprovementPolicy.acquisition`: asserts `x.shape[0] == 1`,
draws `n_samples` posterior samples, computes
`objective(samples) - self.ybest`, clips negatives to `0`, and returns
`(np.mean(...) * self._weight).sum().item()`.  The read `self.ybest`
fails (see `ExpectedImprovementPolicy.ybest`). -/
def ExpectedImprovementPolicy.acquisition (s : PolicyState) (n_samples : Nat)
    (gp : GP) (x : List Point) : Option ℚ :=
  if x.length = 1 then
    (BasePolicy.objective s (gp.sample_y x n_samples)).bind fun J =>
      (ExpectedImprovementPolicy.ybest s).map fun yb =>
        npMean ((J.map fun j => j - yb).map fun j => if j < 0 then 0 else j) *
          s.weight
  else
    none

/-- State of a `TargetPerformance` instance: the internal
`ExploitationTargetPolicy` state and the evaluator's own `_weight`. -/
structure TPState where
  policy : PolicyState
  weight : Option ℚ

/-- `TargetPerformance.__init__`: a fresh internal
`ExploitationTargetPolicy` and `self._weight = None`. -/
def TargetPerformance.init : TPState := ⟨initPolicyState, none⟩

/-- `TargetPerformance.set_target`: forwards to the internal policy. -/
def TargetPerformance.set_target (tp : TPState) (t : ℚ) : TPState :=
  { tp with policy := RequiresTarget.set_target tp.policy t }

/-- `TargetPerformance.set_weight`: stores the evaluator weight. -/
def TargetPerformance.set_weight (tp : TPState) (w : ℚ) : TPState :=
  { tp with weight := some w }

/-- `TargetPerformance.__call__(gp, truth, n_restarts)`:
`estimated = self._policy.suggest(gp, n_restarts)`, `gt = truth(estimated)`,
return `(-self._policy.objective(gt) * self._weight).sum().item()`.
If `suggest` hits the critical-failure path the process has terminated
(`none`); `self._weight = None` makes the final multiplication a
`TypeError` (`none`). -/
def TargetPerformance.call (lo : LocalOpt) (draw : Draw) (tp : TPState)
    (gp : GP) (truth : Point → List ℚ) (n_restarts : Nat) : Option ℚ :=
  match BasePolicy.suggest lo draw
      (fun x => ExploitationTargetPolicy.acquisition tp.policy gp x) gp
      n_restarts with
  | .error _ => none
  | .ok estimated =>
    (BasePolicy.objective tp.policy (truth estimated)).bind fun J =>
      tp.weight.map fun w => (J.map fun j => -j * w).sum

/-- Membership of a point in the per-dimension box (P1). -/
def inBounds (bounds : Bounds) (x : Point) : Bool :=
  decide (x.length = bounds.length) &&
    (bounds.zip x).all fun p => decide (p.1.1 ≤ p.2) && decide (p.2 ≤ p.1.2)

/-- Order on tracked best values, with `none` (that is, `np.inf`) on top. -/
def fleOpt : Option ℚ → Option ℚ → Prop
  | _, none => True
  | none, some _ => False
  | some a, some b => a ≤ b

/-- A target-free Monte-Carlo acquisition following the spec's words for
the MaxVarianceOfObjective row: `weight * Var[J(posterior_samples(x))]`
for a caller-supplied objective transform `J` that does not read the
policy target.  Used only to compare the spec's description with
`MaxVarianceTargetPolicy.acquisition` from the source. -/
def MaxVarianceOfObjectiveSpec (J : ℚ → ℚ) (weight : ℚ) (gp : GP)
    (x : List Point) : ℚ :=
  npVar ((gp.sample_y x 1).map J) * weight

/-- Mock surrogate: bounds `[(0,1)]`, constant predicted mean `0` and
standard deviation `1/2`, posterior samples `[1, 2]`. -/
def mockGP : GP where
  bounds := [(0, 1)]
  predict := fun _ => ([0], [1 / 2])
  sample_y := fun _ _ => [1, 2]

/-- Mock surrogate with constant predicted mean `0` and deviation `1`. -/
def etGP : GP where
  bounds := [(0, 1)]
  predict := fun _ => ([0], [1])
  sample_y := fun _ _ => []

/-- Local minimizer oracle that reports the starting point unchanged. -/
def idLocalOpt : LocalOpt := fun f x0 _ => ⟨x0, f x0⟩

/-- Local minimizer oracle whose reported value is never finite. -/
def failLocalOpt : LocalOpt := fun _ x0 _ => ⟨x0, none⟩

/-- Local minimizer oracle that always lands on the point `[1/2]`. -/
def boxLocalOpt : LocalOpt := fun _ _ _ => ⟨[1 / 2], some 0⟩

/-- Concrete draw sequence: restart `0` starts at `[1]`, later at `[0]`. -/
def stepDraw : Draw := fun k => if k = 0 then [1] else [0]

/-- Constant draw sequence at `[1/2]`. -/
def halfDraw : Draw := fun _ => [1 / 2]

/-- Concrete objective: square of the first coordinate. -/
def sqObj : ObjFun := fun l => some ((l.headD 0) ^ 2)

/-- Concrete constant acquisition. -/
def constAcq : Point → Option ℚ := fun _ => some 0

/-- Concrete ground-truth function: the identity. -/
def idTruth : Point → List ℚ := fun x => x

/-- Concrete bounds. -/
def cBounds : Bounds := [(0, 1)]

/-! Helper lemmas about the restart loop and list sums. -/

-- A successful update test pins down a finite reported value below the
-- tracked minimum.
theorem improves_eq_true {a b : Option ℚ} (h : improves a b = true) :
    ∃ v, a = some v ∧ fleOpt (some v) b := by
  cases a with
  | none => simp [improves] at h
  | some v =>
    refine ⟨v, rfl, ?_⟩
    cases b with
    | none => trivial
    | some m =>
      have hvm : v < m := by simpa [improves] using h
      exact le_of_lt hvm

theorem fleOpt_refl (a : Option ℚ) : fleOpt a a := by
  cases a with
  | none => trivial
  | some v => exact le_refl v

theorem fleOpt_none_right (a : Option ℚ) : fleOpt a none := by
  cases a with
  | none => trivial
  | some v => trivial

theorem fleOpt_trans {a b c : Option ℚ} (h1 : fleOpt a b) (h2 : fleOpt b c) :
    fleOpt a c := by
  cases c with
  | none => exact fleOpt_none_right a
  | some vc =>
    cases b with
    | none => exact (h2 : False).elim
    | some vb =>
      cases a with
      | none => exact (h1 : False).elim
      | some va => exact le_trans (h1 : va ≤ vb) (h2 : vb ≤ vc)

-- Any point tracked by the restart loop was reported by one of the
-- restarts that actually ran.
theorem runRestarts_mem {lo : LocalOpt} {draw : Draw} {f : ObjFun} {bounds : Bounds} :
    ∀ {n : Nat} {x : Point}, (runRestarts lo draw f bounds n).1 = some x →
      ∃ k, k < n ∧ x = (lo f (draw k) bounds).x := by
  intro n
  induction n with
  | zero => intro x h; simp [runRestarts] at h
  | succ n ih =>
    intro x h
    by_cases hc : improves (lo f (draw n) bounds).fval
        (runRestarts lo draw f bounds n).2 = true
    · have hstep : runRestarts lo draw f bounds (n + 1)
          = (some (lo f (draw n) bounds).x, (lo f (draw n) bounds).fval) := by
        simp only [runRestarts]
        rw [if_pos hc]
      rw [hstep] at h
      refine ⟨n, Nat.lt_succ_self n, ?_⟩
      exact (Option.some_injective _ h).symm
    · have hstep : runRestarts lo draw f bounds (n + 1)
          = runRestarts lo draw f bounds n := by
        simp only [runRestarts]
        rw [if_neg hc]
      rw [hstep] at h
      obtain ⟨k, hk, hx⟩ := ih h
      exact ⟨k, Nat.lt_succ_of_lt hk, hx⟩

-- If every restart reports a non-finite value, the loop state never
-- leaves `min_x = None, min_f = np.inf`.
theorem runRestarts_allNone {lo : LocalOpt} {draw : Draw} {f : ObjFun} {bounds : Bounds} :
    ∀ {n : Nat}, (∀ k, k < n → (lo f (draw k) bounds).fval = none) →
      runRestarts lo draw f bounds n = (none, none) := by
  intro n
  induction n with
  | zero => intro _; rfl
  | succ n ih =>
    intro h
    have hres : (lo f (draw n) bounds).fval = none := h n (Nat.lt_succ_self n)
    have hprev := ih fun k hk => h k (Nat.lt_succ_of_lt hk)
    simp only [runRestarts, hres, hprev, improves]
    simp

-- When the local optimizer reports the objective value of the point it
-- returns, the tracked pair satisfies `min_f = f min_x`.
theorem runRestarts_val {lo : LocalOpt} {draw : Draw} {f : ObjFun} {bounds : Bounds}
    (hf : ∀ x0 : Point, (lo f x0 bounds).fval = f ((lo f x0 bounds).x)) :
    ∀ {n : Nat} {x : Point}, (runRestarts lo draw f bounds n).1 = some x →
      ∃ v, (runRestarts lo draw f bounds n).2 = some v ∧ f x = some v := by
  intro n
  induction n with
  | zero => intro x h; simp [runRestarts] at h
  | succ n ih =>
    intro x h
    by_cases hc : improves (lo f (draw n) bounds).fval
        (runRestarts lo draw f bounds n).2 = true
    · have hstep : runRestarts lo draw f bounds (n + 1)
          = (some (lo f (draw n) bounds).x, (lo f (draw n) bounds).fval) := by
        simp only [runRestarts]
        rw [if_pos hc]
      rw [hstep] at h ⊢
      obtain ⟨v, hv, _⟩ := improves_eq_true hc
      refine ⟨v, hv, ?_⟩
      have hx : (lo f (draw n) bounds).x = x := Option.some_injective _ h
      rw [← hx, ← hf, hv]
    · have hstep : runRestarts lo draw f bounds (n + 1)
          = runRestarts lo draw f bounds n := by
        simp only [runRestarts]
        rw [if_neg hc]
      rw [hstep] at h ⊢
      exact ih h

-- One extra restart never worsens the tracked best value.
theorem runRestarts_fle_succ (lo : LocalOpt) (draw : Draw) (f : ObjFun)
    (bounds : Bounds) (n : Nat) :
    fleOpt (runRestarts lo draw f bounds (n + 1)).2
      (runRestarts lo draw f bounds n).2 := by
  by_cases hc : improves (lo f (draw n) bounds).fval
      (runRestarts lo draw f bounds n).2 = true
  · have hstep : runRestarts lo draw f bounds (n + 1)
        = (some (lo f (draw n) bounds).x, (lo f (draw n) bounds).fval) := by
      simp only [runRestarts]
      rw [if_pos hc]
    rw [hstep]
    obtain ⟨v, hv, hfle⟩ := improves_eq_true hc
    rw [hv]
    exact hfle
  · have hstep : runRestarts lo draw f bounds (n + 1)
        = runRestarts lo draw f bounds n := by
      simp only [runRestarts]
      rw [if_neg hc]
    rw [hstep]
    exact fleOpt_refl _

theorem runRestarts_fle_mono (lo : LocalOpt) (draw : Draw) (f : ObjFun)
    (bounds : Bounds) {n m : Nat} (hnm : n ≤ m) :
    fleOpt (runRestarts lo draw f bounds m).2 (runRestarts lo draw f bounds n).2 := by
  induction hnm with
  | refl => exact fleOpt_refl _
  | step h ih => exact fleOpt_trans (runRestarts_fle_succ lo draw f bounds _) ih

-- A returned point is exactly a tracked `min_x`.
theorem optimize_01_ok {lo : LocalOpt} {draw : Draw} {f : ObjFun} {bounds : Bounds}
    {n : Nat} {x : Point} (h : optimize_01 lo draw f bounds n = .ok x) :
    (runRestarts lo draw f bounds n).1 = some x := by
  unfold optimize_01 at h
  cases hr : (runRestarts lo draw f bounds n).1 with
  | none => rw [hr] at h; exact Except.noConfusion h
  | some y =>
    rw [hr] at h
    injection h with h2
    rw [h2]

-- Pulling a positive factor out of a weighted sum.
theorem sum_map_weight (c w : ℚ) (g : ℚ → ℚ) (l : List ℚ) :
    (l.map fun a => g a * (c * w)).sum = c * (l.map fun a => g a * w).sum := by
  have h1 : (fun a : ℚ => g a * (c * w)) = fun a => c * (g a * w) := by
    funext a; ring
  rw [h1, List.sum_map_mul_left]

/-! Claim theorems. -/

/-- Claim C1 (code evaluation at the failing input).  With a batch of two
points the `assert x.shape[0] == 1` fires, so the call fails — as the
claim states.  But with a batch of exactly one point, the target set to
`0`, `ybest` set (via `set_ybest`, which writes `_ybest`) to `-1000`,
below every `objective(sample)` value, the call still fails: the read
`self.ybest` raises `AttributeError` because no `ybest` attribute or
property is ever defined, contradicting the claim's "returns a finite
scalar ≥ 0". -/
theorem expectedImprovement_eval :
    ExpectedImprovementPolicy.acquisition
        ⟨some 0, some (-1000), 1⟩ 100 mockGP [[1 / 2], [1 / 4]] = none
    ∧ ExpectedImprovementPolicy.acquisition
        ⟨some 0, some (-1000), 1⟩ 100 mockGP [[1 / 2]] = none :=
  ⟨rfl, rfl⟩

/-- Claim C2: with `num_restarts = 0`, and more generally whenever no
restart reports a finite value improving on `np.inf`, `optimize_01`
signals the critical failure "Optimization unsuccessful" (which
terminates the process) instead of silently returning a usable point. -/
theorem optimize_01_failure_path (lo : LocalOpt) (draw : Draw) (f : ObjFun)
    (bounds : Bounds) :
    optimize_01 lo draw f bounds 0 = .error "Optimization unsuccessful"
    ∧ ∀ n : Nat, (∀ k, k < n → (lo f (draw k) bounds).fval = none) →
        optimize_01 lo draw f bounds n = .error "Optimization unsuccessful" := by
  constructor
  · rfl
  · intro n h
    unfold optimize_01
    rw [runRestarts_allNone h]

theorem optimize_01_failure_path_witness :
    (∀ k, k < 2 → (failLocalOpt sqObj (stepDraw k) cBounds).fval = none)
    ∧ optimize_01 failLocalOpt stepDraw sqObj cBounds 2
        = .error "Optimization unsuccessful" :=
  ⟨fun _ _ => rfl,
    (optimize_01_failure_path failLocalOpt stepDraw sqObj cBounds).2 2
      (fun _ _ => rfl)⟩

/-- Claim C4: for every policy variant (the acquisition is quantified as a
function, so every variant is covered), `suggest(gp, n_restarts)` is
exactly `optimize_01` applied to the negated acquisition
`x ↦ -acquisition(x, gp)`, with the model's bounds and `n_restarts`
restarts. -/
theorem suggest_refines_optimize (lo : LocalOpt) (draw : Draw)
    (acq : Point → Option ℚ) (gp : GP) (n_restarts : Nat) :
    BasePolicy.suggest lo draw acq gp n_restarts
      = optimize_01 lo draw (fun x => (acq x).map fun v => -v) gp.bounds
          n_restarts := rfl

/-- Claim C5 (counterexample).  The claim says `MaxVarianceTargetPolicy`
uses an overridden, target-free objective and never the inherited
default.  On a fresh instance (target unset, default weight) with a
model whose posterior samples are `[1, 2]`, the acquisition fails
(`TypeError` from `None - samples` inside the inherited
`BasePolicy.objective`): it does use the inherited, target-reading
default, so it returns no value where the claim requires one. -/
theorem maxVarianceTarget_unset_target_fails :
    MaxVarianceTargetPolicy.acquisition ⟨none, none, 1⟩ mockGP [[0]] = none := rfl

/-- Claim C5 (amended): `MaxVarianceTargetPolicy.acquisition` uses the
inherited target-based `BasePolicy.objective` on the posterior samples:
with the target set to `t` it returns
`Var[-(t - sample)^2] * weight` — which coincides with the spec's
target-free formula only for the objective transform
`J r = -((t - r)^2)` — and with the target unset it fails. -/
theorem maxVarianceTarget_uses_inherited_objective (t : ℚ) (yb : Option ℚ)
    (w : ℚ) (gp : GP) (x : List Point) :
    MaxVarianceTargetPolicy.acquisition ⟨some t, yb, w⟩ gp x
      = some (npVar ((gp.sample_y x 1).map fun r => -((t - r) ^ 2)) * w)
    ∧ MaxVarianceTargetPolicy.acquisition ⟨some t, yb, w⟩ gp x
      = some (MaxVarianceOfObjectiveSpec (fun r => -((t - r) ^ 2)) w gp x)
    ∧ MaxVarianceTargetPolicy.acquisition ⟨none, yb, w⟩ gp x = none :=
  ⟨rfl, rfl, rfl⟩

/-- Claim C8: `MaxVariancePolicy.acquisition` never fails whatever the
(unset) target/ybest state: it depends only on the predicted standard
deviation and the weight, equals the sum over output dimensions of
`weight * sd^2`, and on a model with constant `sd = 1/2` and default
weight `1.0` it gives `acquisition([3/10]) = 1/4`. -/
theorem maxVariance_target_free :
    (∀ (t yb : Option ℚ) (w : ℚ) (gp : GP) (x : Point),
        MaxVariancePolicy.acquisition ⟨t, yb, w⟩ gp x
          = (((gp.predict x).2).map fun sd => w * sd ^ 2).sum)
    ∧ MaxVariancePolicy.acquisition initPolicyState mockGP [3 / 10] = 1 / 4 := by
  constructor
  · intro t yb w gp x
    unfold MaxVariancePolicy.acquisition
    have h : (fun sd : ℚ => sd ^ 2 * w) = fun sd => w * sd ^ 2 := by
      funext sd; ring
    rw [h]
  · norm_num [MaxVariancePolicy.acquisition, initPolicyState, mockGP]

/-- Claim C7: scaling the stored weight by a positive constant `c`
multiplies the acquisition output by exactly `c`, for a fixed input and
model: exactly for `MaxVariancePolicy` and `ExploitationTargetPolicy`,
and exactly as well for the Monte-Carlo `MaxVarianceTargetPolicy` given
the same posterior samples. -/
theorem weight_scaling (t yb : Option ℚ) (w c : ℚ) (hc : 0 < c) (gp : GP)
    (x : Point) (xb : List Point) :
    MaxVariancePolicy.acquisition ⟨t, yb, c * w⟩ gp x
      = c * MaxVariancePolicy.acquisition ⟨t, yb, w⟩ gp x
    ∧ ExploitationTargetPolicy.acquisition ⟨t, yb, c * w⟩ gp x
      = (ExploitationTargetPolicy.acquisition ⟨t, yb, w⟩ gp x).map (fun v => c * v)
    ∧ MaxVarianceTargetPolicy.acquisition ⟨t, yb, c * w⟩ gp xb
      = (MaxVarianceTargetPolicy.acquisition ⟨t, yb, w⟩ gp xb).map
          (fun v => c * v) := by
  refine ⟨?_, ?_, ?_⟩
  · unfold MaxVariancePolicy.acquisition
    exact sum_map_weight c w (fun sd => sd ^ 2) _
  · cases t with
    | none => rfl
    | some tv =>
      exact congrArg some (sum_map_weight c w (fun j => j) _)
  · cases t with
    | none => rfl
    | some tv =>
      exact congrArg some (by ring)

theorem weight_scaling_witness :
    (0 : ℚ) < 2
    ∧ (MaxVariancePolicy.acquisition ⟨some 1, none, 2 * 1⟩ mockGP [0]
        = 2 * MaxVariancePolicy.acquisition ⟨some 1, none, 1⟩ mockGP [0]
      ∧ ExploitationTargetPolicy.acquisition ⟨some 1, none, 2 * 1⟩ mockGP [0]
        = (ExploitationTargetPolicy.acquisition ⟨some 1, none, 1⟩ mockGP [0]).map
            (fun v => 2 * v)
      ∧ MaxVarianceTargetPolicy.acquisition ⟨some 1, none, 2 * 1⟩ mockGP [[0]]
        = (MaxVarianceTargetPolicy.acquisition ⟨some 1, none, 1⟩ mockGP [[0]]).map
            (fun v => 2 * v)) :=
  ⟨by norm_num, weight_scaling (some 1) none 1 2 (by norm_num) mockGP [0] [[0]]⟩

/-- Claim C3: under the Local Bounded Optimizer collaborator contract —
every local minimization over the model's box bounds returns a point
inside that box — every point returned by `suggest` (for any
acquisition, hence any policy variant, and any `n_restarts ≥ 1`) lies
inside the per-dimension `[low, high]` box. -/
theorem suggest_respects_bounds (lo : LocalOpt) (draw : Draw)
    (acq : Point → Option ℚ) (gp : GP) (n_restarts : Nat)
    (hn : 1 ≤ n_restarts)
    (hlo : ∀ (g : ObjFun) (x0 : Point),
      inBounds gp.bounds ((lo g x0 gp.bounds).x) = true)
    (x : Point) (hx : BasePolicy.suggest lo draw acq gp n_restarts = .ok x) :
    inBounds gp.bounds x = true := by
  obtain ⟨k, hk, hxe⟩ := runRestarts_mem (optimize_01_ok hx)
  rw [hxe]
  exact hlo _ _

theorem suggest_respects_bounds_witness :
    1 ≤ 1
    ∧ (∀ (g : ObjFun) (x0 : Point),
        inBounds mockGP.bounds ((boxLocalOpt g x0 mockGP.bounds).x) = true)
    ∧ BasePolicy.suggest boxLocalOpt halfDraw constAcq mockGP 1 = .ok [1 / 2]
    ∧ inBounds mockGP.bounds [1 / 2] = true :=
  ⟨Nat.le_refl 1,
    fun _ _ => by
      show inBounds mockGP.bounds [1 / 2] = true
      norm_num [inBounds, mockGP],
    rfl,
    suggest_respects_bounds boxLocalOpt halfDraw constAcq mockGP 1
      (Nat.le_refl 1)
      (fun _ _ => by
        show inBounds mockGP.bounds [1 / 2] = true
        norm_num [inBounds, mockGP])
      [1 / 2] rfl⟩

/-- Claim C9: the per-restart draws are a fixed sequence `draw`, so a run
with more restarts reproduces the first restarts as a prefix; when the
local minimizer reports the objective value of the point it returns,
the best objective value `f(x*)` of the point returned by
`optimize_01` is monotonically non-increasing in `num_restarts`. -/
theorem optimize_01_monotone_restarts (lo : LocalOpt) (draw : Draw) (f : ObjFun)
    (bounds : Bounds)
    (hf : ∀ x0 : Point, (lo f x0 bounds).fval = f ((lo f x0 bounds).x))
    {n m : Nat} (hnm : n ≤ m) (xn xm : Point)
    (hn : optimize_01 lo draw f bounds n = .ok xn)
    (hm : optimize_01 lo draw f bounds m = .ok xm) :
    ∃ vn vm : ℚ, f xn = some vn ∧ f xm = some vm ∧ vm ≤ vn := by
  obtain ⟨vn, hvn2, hvnf⟩ := runRestarts_val hf (optimize_01_ok hn)
  obtain ⟨vm, hvm2, hvmf⟩ := runRestarts_val hf (optimize_01_ok hm)
  refine ⟨vn, vm, hvnf, hvmf, ?_⟩
  have hfle := runRestarts_fle_mono lo draw f bounds hnm
  rw [hvm2, hvn2] at hfle
  exact hfle

theorem optimize_01_monotone_restarts_witness :
    (∀ x0 : Point,
        (idLocalOpt sqObj x0 cBounds).fval = sqObj ((idLocalOpt sqObj x0 cBounds).x))
    ∧ 1 ≤ 2
    ∧ optimize_01 idLocalOpt stepDraw sqObj cBounds 1 = .ok [1]
    ∧ optimize_01 idLocalOpt stepDraw sqObj cBounds 2 = .ok [0]
    ∧ ∃ vn vm : ℚ, sqObj [1] = some vn ∧ sqObj [0] = some vm ∧ vm ≤ vn :=
  ⟨fun _ => rfl, by norm_num, rfl, rfl,
    @optimize_01_monotone_restarts idLocalOpt stepDraw sqObj cBounds
      (fun _ => rfl) 1 2 (by norm_num) [1] [0] rfl rfl⟩

/-- Claim C6: `TargetPerformance.__call__` returns
`-objective(y_true) * weight` summed, with `x_est` the point suggested
by the internal `ExploitationTargetPolicy`, `y_true = truth(x_est)`,
and `objective` the inherited default negative squared distance to the
target; with that default the result is `weight * Σ (target - y)^2`,
which is nonnegative whenever the weight is. -/
theorem targetPerformance_eval (lo : LocalOpt) (draw : Draw) (gp : GP)
    (truth : Point → List ℚ) (n_restarts : Nat) (tp : TPState) (t w : ℚ)
    (est : Point)
    (ht : tp.policy.target = some t) (hw : tp.weight = some w)
    (hs : BasePolicy.suggest lo draw
        (fun x => ExploitationTargetPolicy.acquisition tp.policy gp x) gp
        n_restarts = .ok est) :
    TargetPerformance.call lo draw tp gp truth n_restarts
      = some (((truth est).map fun y => (t - y) ^ 2 * w).sum)
    ∧ (0 ≤ w → 0 ≤ (((truth est).map fun y => (t - y) ^ 2 * w)).sum) := by
  constructor
  · unfold TargetPerformance.call
    rw [hs]
    show (BasePolicy.objective tp.policy (truth est)).bind
        (fun J => tp.weight.map fun w2 => (J.map fun j => -j * w2).sum)
      = some (((truth est).map fun y => (t - y) ^ 2 * w).sum)
    rw [BasePolicy.objective, ht, Option.map_some', Option.some_bind', hw,
      Option.map_some', List.map_map]
    have hfun : ((fun j : ℚ => -j * w) ∘ fun y : ℚ => -((t - y) ^ 2))
        = fun y : ℚ => (t - y) ^ 2 * w := by
      funext y
      simp only [Function.comp_apply]
      ring
    rw [hfun]
  · intro hw0
    apply List.sum_nonneg
    intro a ha
    simp only [List.mem_map] at ha
    obtain ⟨y, _, rfl⟩ := ha
    exact mul_nonneg (sq_nonneg _) hw0

theorem targetPerformance_eval_witness :
    (TargetPerformance.set_weight
        (TargetPerformance.set_target TargetPerformance.init 1) 2).policy.target
      = some 1
    ∧ (TargetPerformance.set_weight
        (TargetPerformance.set_target TargetPerformance.init 1) 2).weight = some 2
    ∧ BasePolicy.suggest idLocalOpt halfDraw
        (fun x => ExploitationTargetPolicy.acquisition
          (TargetPerformance.set_weight
            (TargetPerformance.set_target TargetPerformance.init 1) 2).policy
          etGP x) etGP 1 = .ok [1 / 2]
    ∧ (TargetPerformance.call idLocalOpt halfDraw
          (TargetPerformance.set_weight
            (TargetPerformance.set_target TargetPerformance.init 1) 2)
          etGP idTruth 1
        = some (((idTruth [1 / 2]).map fun y => (1 - y) ^ 2 * 2).sum)
      ∧ ((0 : ℚ) ≤ 2 →
          0 ≤ (((idTruth [1 / 2]).map fun y => (1 - y) ^ 2 * 2)).sum)) :=
  ⟨rfl, rfl, rfl,
    targetPerformance_eval idLocalOpt halfDraw etGP idTruth 1
      (TargetPerformance.set_weight
        (TargetPerformance.set_target TargetPerformance.init 1) 2) 1 2 [1 / 2]
      rfl rfl rfl⟩

/-- Claim C10: a fresh `TargetPerformance` stores `_weight = None` — not
the policy default `1.0`, which only the internal policy keeps — so
invoking `__call__` before `set_weight` fails (the final scoring
multiplication is `TypeError` on `None`) instead of returning a score,
whereas the same call with a weight set (and the target set, and the
internal suggestion succeeding) does return a score: `set_weight` must
be called before evaluation. -/
theorem targetPerformance_weight_unset (lo : LocalOpt) (draw : Draw) (gp : GP)
    (truth : Point → List ℚ) (n_restarts : Nat) (tp : TPState)
    (hw : tp.weight = none) :
    TargetPerformance.init.weight = none
    ∧ TargetPerformance.init.policy.weight = 1
    ∧ TargetPerformance.call lo draw tp gp truth n_restarts = none
    ∧ ∀ (w t : ℚ) (tp2 : TPState) (est : Point),
        tp2.weight = some w → tp2.policy.target = some t →
        BasePolicy.suggest lo draw
            (fun x => ExploitationTargetPolicy.acquisition tp2.policy gp x) gp
            n_restarts = .ok est →
        ∃ q : ℚ, TargetPerformance.call lo draw tp2 gp truth n_restarts = some q := by
  refine ⟨rfl, rfl, ?_, ?_⟩
  · unfold TargetPerformance.call
    cases hres : BasePolicy.suggest lo draw
        (fun x => ExploitationTargetPolicy.acquisition tp.policy gp x) gp
        n_restarts with
    | error e => rfl
    | ok est =>
      show (BasePolicy.objective tp.policy (truth est)).bind
          (fun J => tp.weight.map fun w2 => (J.map fun j => -j * w2).sum)
        = none
      rw [hw]
      cases BasePolicy.objective tp.policy (truth est) with
      | none => rfl
      | some J => rfl
  · intro w t tp2 est hw2 ht2 hs2
    refine ⟨(((truth est).map fun y => -((t - y) ^ 2)).map fun j => -j * w).sum, ?_⟩
    unfold TargetPerformance.call
    rw [hs2]
    show (BasePolicy.objective tp2.policy (truth est)).bind
        (fun J => tp2.weight.map fun w2 => (J.map fun j => -j * w2).sum)
      = some ((((truth est).map fun y => -((t - y) ^ 2)).map fun j => -j * w).sum)
    rw [BasePolicy.objective, ht2, Option.map_some', Option.some_bind', hw2,
      Option.map_some']

theorem targetPerformance_weight_unset_witness :
    (TargetPerformance.set_target TargetPerformance.init 1).weight = none
    ∧ (TargetPerformance.init.weight = none
      ∧ TargetPerformance.init.policy.weight = 1
      ∧ TargetPerformance.call idLocalOpt halfDraw
          (TargetPerformance.set_target TargetPerformance.init 1) etGP idTruth 1
          = none
      ∧ ∀ (w t : ℚ) (tp2 : TPState) (est : Point),
          tp2.weight = some w → tp2.policy.target = some t →
          BasePolicy.suggest idLocalOpt halfDraw
              (fun x => ExploitationTargetPolicy.acquisition tp2.policy etGP x)
              etGP 1 = .ok est →
          ∃ q : ℚ, TargetPerformance.call idLocalOpt halfDraw tp2 etGP idTruth 1
              = some q) :=
  ⟨rfl,
    targetPerformance_weight_unset idLocalOpt halfDraw etGP idTruth 1
      (TargetPerformance.set_target TargetPerformance.init 1) rfl⟩
